import Mathlib

/-!
Verification development for the transcript cache of the transcribe-audio
repository (`scripts/utils/cache_helpers.py`, `scripts/utils/constants.py`,
`scripts/servers/transcribe/cache.py`).

The embedding models:
* `get_cache_key` — MD5 (RFC 1321) of the UTF-8 bytes of
  `f"{source_type}:{source}"`, rendered as a lowercase hex digest, exactly
  as `hashlib.md5(content.encode()).hexdigest()` computes it;
* the cache directory as an association list of file records with
  modification times, together with flags describing which filesystem
  operations fail (this models `open` raising `OSError`);
* `get_cached_transcript`, `save_to_cache`, `list_cached_transcripts`
  and the wrapper `get_cached`.
-/

set_option maxRecDepth 100000

namespace TranscribeCache

/-! ### MD5, modelling `hashlib.md5` -/

/-- Truncation to an unsigned 32-bit value, as in MD5 word arithmetic. -/
def u32 (n : Nat) : Nat := n % 4294967296

/-- Left rotation of a 32-bit word `x` (with `x < 2^32`) by `s` bits.
For such `x` the low part `(x * 2^s) % 2^32` and the high part
`x / 2^(32-s)` occupy disjoint bit ranges, so their sum is the rotation. -/
def rotl32 (x s : Nat) : Nat := (x * 2 ^ s) % 4294967296 + x / 2 ^ (32 - s)

/-- MD5 round function F: `(B and C) or ((not B) and D)`; complement of a
32-bit word `b` is `4294967295 - b`. -/
def md5F (b c d : Nat) : Nat := (b &&& c) ||| ((4294967295 - b) &&& d)

/-- MD5 round function G: `(B and D) or (C and (not D))`. -/
def md5G (b c d : Nat) : Nat := (b &&& d) ||| (c &&& (4294967295 - d))

/-- MD5 round function H: `B xor C xor D`. -/
def md5H (b c d : Nat) : Nat := b ^^^ c ^^^ d

/-- MD5 round function I: `C xor (B or (not D))`. -/
def md5I (b c d : Nat) : Nat := c ^^^ (b ||| (4294967295 - d))

/-- The 64 MD5 sine constants `floor(abs(sin(i+1)) * 2^32)` of RFC 1321. -/
def md5K : List Nat :=
  [0xd76aa478, 0xe8c7b756, 0x242070db, 0xc1bdceee,
   0xf57c0faf, 0x4787c62a, 0xa8304613, 0xfd469501,
   0x698098d8, 0x8b44f7af, 0xffff5bb1, 0x895cd7be,
   0x6b901122, 0xfd987193, 0xa679438e, 0x49b40821,
   0xf61e2562, 0xc040b340, 0x265e5a51, 0xe9b6c7aa,
   0xd62f105d, 0x02441453, 0xd8a1e681, 0xe7d3fbc8,
   0x21e1cde6, 0xc33707d6, 0xf4d50d87, 0x455a14ed,
   0xa9e3e905, 0xfcefa3f8, 0x676f02d9, 0x8d2a4c8a,
   0xfffa3942, 0x8771f681, 0x6d9d6122, 0xfde5380c,
   0xa4beea44, 0x4bdecfa9, 0xf6bb4b60, 0xbebfbc70,
   0x289b7ec6, 0xeaa127fa, 0xd4ef3085, 0x04881d05,
   0xd9d4d039, 0xe6db99e5, 0x1fa27cf8, 0xc4ac5665,
   0xf4292244, 0x432aff97, 0xab9423a7, 0xfc93a039,
   0x655b59c3, 0x8f0ccc92, 0xffeff47d, 0x85845dd1,
   0x6fa87e4f, 0xfe2ce6e0, 0xa3014314, 0x4e0811a1,
   0xf7537e82, 0xbd3af235, 0x2ad7d2bb, 0xeb86d391]

/-- The per-round left-rotation amounts of RFC 1321. -/
def md5s (i : Nat) : Nat :=
  if i < 16 then [7, 12, 17, 22].getD (i % 4) 0
  else if i < 32 then [5, 9, 14, 20].getD (i % 4) 0
  else if i < 48 then [4, 11, 16, 23].getD (i % 4) 0
  else [6, 10, 15, 21].getD (i % 4) 0

/-- One MD5 round: `M` is the 16-word message block, `i` the round index. -/
def md5Step (M : List Nat) (st : Nat × Nat × Nat × Nat) (i : Nat) :
    Nat × Nat × Nat × Nat :=
  let (a, b, c, d) := st
  let f :=
    if i < 16 then md5F b c d
    else if i < 32 then md5G b c d
    else if i < 48 then md5H b c d
    else md5I b c d
  let g :=
    if i < 16 then i
    else if i < 32 then (5 * i + 1) % 16
    else if i < 48 then (3 * i + 5) % 16
    else (7 * i) % 16
  let x := u32 (a + f + md5K.getD i 0 + M.getD g 0)
  (d, u32 (b + rotl32 x (md5s i)), b, c)

/-- Process one 64-byte block: decode 16 little-endian words, run the 64
rounds, and add the result to the incoming state (mod 2^32). -/
def md5Block (st : Nat × Nat × Nat × Nat) (block : List Nat) :
    Nat × Nat × Nat × Nat :=
  let M := (List.range 16).map fun j =>
    block.getD (4 * j) 0 + 256 * block.getD (4 * j + 1) 0 +
      65536 * block.getD (4 * j + 2) 0 + 16777216 * block.getD (4 * j + 3) 0
  let r := (List.range 64).foldl (md5Step M) st
  (u32 (st.1 + r.1), u32 (st.2.1 + r.2.1), u32 (st.2.2.1 + r.2.2.1),
    u32 (st.2.2.2 + r.2.2.2))

/-- Fold `md5Block` over the message 64 bytes at a time; the first argument
is fuel, structurally decreasing so the kernel can evaluate the function.
Each step consumes 64 bytes, so any fuel at least the message length is
enough. -/
def md5BlocksAux : Nat → Nat × Nat × Nat × Nat → List Nat → Nat × Nat × Nat × Nat
  | 0, st, _ => st
  | fuel + 1, st, msg =>
    if msg.length < 64 then st
    else md5BlocksAux fuel (md5Block st (msg.take 64)) (msg.drop 64)

/-- Fold `md5Block` over the (already padded) message, 64 bytes at a time. -/
def md5Blocks (st : Nat × Nat × Nat × Nat) (msg : List Nat) :
    Nat × Nat × Nat × Nat :=
  md5BlocksAux msg.length st msg

/-- MD5 padding: append `0x80`, zeros to 56 mod 64, then the 64-bit
little-endian bit length. -/
def md5Pad (msg : List Nat) : List Nat :=
  let bitLen := (msg.length * 8) % 18446744073709551616
  msg ++ [128] ++ List.replicate ((119 - msg.length % 64) % 64) 0 ++
    (List.range 8).map fun j => bitLen / 2 ^ (8 * j) % 256

/-- The MD5 initialization vector of RFC 1321. -/
def md5Init : Nat × Nat × Nat × Nat :=
  (0x67452301, 0xefcdab89, 0x98badcfe, 0x10325476)

/-- The four 32-bit state words of the MD5 digest of a byte sequence. -/
def md5Words (msg : List Nat) : Nat × Nat × Nat × Nat :=
  md5Blocks md5Init (md5Pad msg)

/-- Lowercase hexadecimal digit. -/
def hexDigit (n : Nat) : Char :=
  Char.ofNat (if n < 10 then 48 + n else 87 + n)

/-- Two lowercase hex characters of one byte. -/
def byteHex (b : Nat) : List Char := [hexDigit (b / 16), hexDigit (b % 16)]

/-- The four bytes of a 32-bit word, little-endian. -/
def wordBytesLE (w : Nat) : List Nat :=
  [w % 256, w / 256 % 256, w / 65536 % 256, w / 16777216 % 256]

/-- Render an MD5 state as the usual 32-character lowercase hex digest. -/
def md5HexOfWords (st : Nat × Nat × Nat × Nat) : String :=
  String.mk (((wordBytesLE st.1 ++ wordBytesLE st.2.1 ++ wordBytesLE st.2.2.1 ++
    wordBytesLE st.2.2.2).map byteHex).flatten)

/-- UTF-8 encoding of one Unicode scalar value, as `str.encode()` yields. -/
def utf8EncodeChar (c : Nat) : List Nat :=
  if c < 128 then [c]
  else if c < 2048 then [192 + c / 64, 128 + c % 64]
  else if c < 65536 then [224 + c / 4096, 128 + c / 64 % 64, 128 + c % 64]
  else [240 + c / 262144, 128 + c / 4096 % 64, 128 + c / 64 % 64, 128 + c % 64]

/-- The UTF-8 bytes of a string, modelling Python `content.encode()`. -/
def utf8Bytes (s : String) : List Nat :=
  (s.data.map fun c => utf8EncodeChar c.toNat).flatten

/-- `hashlib.md5(s.encode()).hexdigest()`. -/
def md5Hexdigest (s : String) : String := md5HexOfWords (md5Words (utf8Bytes s))

/-- `get_cache_key` from `scripts/utils/cache_helpers.py`:
`hashlib.md5(f"{source_type}:{source}".encode()).hexdigest()`. -/
def get_cache_key (source : String) (source_type : String) : String :=
  md5Hexdigest (source_type ++ ":" ++ source)

/-- The packed MD5 state as an element of a finite type; each word is
reduced once more mod 2^32, which is the identity on MD5 states (see
`md5Words_lt`). -/
def md5WordsFin (msg : List Nat) :
    Fin 4294967296 × Fin 4294967296 × Fin 4294967296 × Fin 4294967296 :=
  (⟨(md5Words msg).1 % 4294967296, Nat.mod_lt _ (by norm_num)⟩,
   ⟨(md5Words msg).2.1 % 4294967296, Nat.mod_lt _ (by norm_num)⟩,
   ⟨(md5Words msg).2.2.1 % 4294967296, Nat.mod_lt _ (by norm_num)⟩,
   ⟨(md5Words msg).2.2.2 % 4294967296, Nat.mod_lt _ (by norm_num)⟩)

/-- A string of `n` letters `a`; used to exhibit infinitely many distinct
`source_type` arguments. -/
def aRun (n : Nat) : String := String.mk (List.replicate n 'a')

/-! ### Cache data model

The cache directory (`CACHE_DIR` of `scripts/utils/constants.py`) is
modelled as an association list from file names to file records carrying a
content and a modification time.  A record's content is either a parsed
cache record (a JSON object written by `save_to_cache`, which always has
the four fields `transcript`, `metadata`, `cached_at`, `cache_key`) or
`invalid`, a file on which `json.load` raises.  Metadata is modelled as a
string-to-string association mapping; `metaGet` models `dict.get` with a
default.  The booleans `readFails`/`writeFails` model `open` raising an
`OSError` for a given file name on the read or write side, and
`rootExists` models the presence of the cache directory itself. -/

/-- Metadata mapping of a cache entry (`metadata` argument of
`save_to_cache`), modelled as a string-keyed association list. -/
abbrev Metadata := List (String × String)

/-- Python `dict.get(key, default)` on a metadata mapping. -/
def metaGet : Metadata → String → String → String
  | [], _, dflt => dflt
  | (k, v) :: rest, key, dflt => if k = key then v else metaGet rest key dflt

/-- A parsed cache record, the JSON object `save_to_cache` serializes:
`{"transcript": ..., "metadata": ..., "cached_at": ..., "cache_key": ...}`. -/
structure CacheData where
  transcript : String
  metadata : Metadata
  cached_at : String
  cache_key : String
deriving DecidableEq

/-- Content of a file in the cache directory: either a record that
`json.load` parses (always carrying the four standard fields, since all
records in the modelled states were produced by `save_to_cache`), or bytes
on which `json.load` raises. -/
inductive FileContent where
  | jsonRecord (data : CacheData)
  | invalid
deriving DecidableEq

/-- A file with its content and its storage-layer modification time
(`Path.stat().st_mtime`). -/
structure FileRecord where
  content : FileContent
  mtime : Nat
deriving DecidableEq

/-- The filesystem state seen by the cache helpers: the files of
`CACHE_DIR`, whether that directory exists, and which file names fail to
open for reading or for writing (modelling `OSError`). -/
structure FsState where
  files : List (String × FileRecord)
  rootExists : Bool
  readFails : String → Bool
  writeFails : String → Bool

/-- The I/O errors `open` can raise on the write path: the parent
directory is missing, or the write is denied (permissions, disk full). -/
inductive IOFailure where
  | fileNotFound (path : String)
  | writeDenied (path : String)
deriving DecidableEq

/-- Look a file up by name in the directory listing. -/
def getFile : List (String × FileRecord) → String → Option FileRecord
  | [], _ => none
  | (n, r) :: rest, name => if n = name then some r else getFile rest name

/-- Create or overwrite a file, as `open(name, 'w')` followed by a write
does: replace the record in place when the name exists, append otherwise. -/
def setFile : List (String × FileRecord) → String → FileRecord → List (String × FileRecord)
  | [], name, r => [(name, r)]
  | (n, r0) :: rest, name, r =>
    if n = name then (name, r) :: rest else (n, r0) :: setFile rest name r

/-- `Path.exists()` for a file in the cache directory: the directory
exists and contains the name. -/
def fileExists (s : FsState) (name : String) : Bool :=
  s.rootExists && (getFile s.files name).isSome

/-- The file name `f"{cache_key}.json"` used by the cache helpers. -/
def cacheFileName (cache_key : String) : String := cache_key ++ ".json"

/-- `get_cached_transcript` from `scripts/utils/cache_helpers.py`: return
`None` when the file does not exist; otherwise open and `json.load` it
inside `try/except Exception`, returning the parsed data on success and
`None` when opening or parsing raises. -/
def get_cached_transcript (s : FsState) (cache_key : String) : Option CacheData :=
  let name := cacheFileName cache_key
  if fileExists s name then
    match getFile s.files name with
    | some r =>
      if s.readFails name then none
      else
        match r.content with
        | FileContent.jsonRecord d => some d
        | FileContent.invalid => none
    | none => none
  else none

/-- `save_to_cache` from `scripts/utils/cache_helpers.py`: build the
record from the arguments and the current time (`now`/`nowIso` model
`datetime.now()` and its `isoformat()`), then `open(cache_file, 'w')` and
`json.dump`.  There is no `try/except`: any `OSError` of the write path —
missing cache directory or denied write — propagates to the caller, which
the `Except` result models.  The function performs no `mkdir`. -/
def save_to_cache (s : FsState) (now : Nat) (nowIso : String)
    (cache_key : String) (transcript : String) (metadata : Metadata) :
    Except IOFailure FsState :=
  let cache_data : CacheData :=
    { transcript := transcript, metadata := metadata,
      cached_at := nowIso, cache_key := cache_key }
  let name := cacheFileName cache_key
  if s.rootExists = false then Except.error (IOFailure.fileNotFound name)
  else if s.writeFails name then Except.error (IOFailure.writeDenied name)
  else Except.ok { s with
    files := setFile s.files name ⟨FileContent.jsonRecord cache_data, now⟩ }

/-- The module-import side effect of `scripts/utils/constants.py`:
`CACHE_DIR.mkdir(parents=True, exist_ok=True)` — creates the cache
directory if absent, no error if present. -/
def constants_init (s : FsState) : FsState := { s with rootExists := true }

/-- Whether a file name matches the `CACHE_DIR.glob("*.json")` pattern,
i.e. ends in `".json"`: the last five characters, read off the reversed
character list, are those of `".json"` reversed. -/
def jsonExt (name : String) : Bool :=
  name.data.reverse.take 5 == ['n', 'o', 's', 'j', '.']

/-- The comparison `sorted(..., key=lambda p: p.stat().st_mtime,
reverse=True)` sorts by: later modification time first. -/
def mtimeGe (a b : String × FileRecord) : Prop := b.2.mtime ≤ a.2.mtime

instance : DecidableRel mtimeGe := fun _ _ => Nat.decLe _ _

instance : IsTotal (String × FileRecord) mtimeGe :=
  ⟨fun a b => Nat.le_total b.2.mtime a.2.mtime⟩

instance : IsTrans (String × FileRecord) mtimeGe :=
  ⟨fun _ _ _ h1 h2 => Nat.le_trans h2 h1⟩

/-- Python list slicing `l[:limit]` for an arbitrary (possibly negative)
integer bound: a nonnegative bound keeps the first `limit` elements; a
negative bound drops the last `-limit` elements (clamped at zero). -/
def pySlice {α : Type} (l : List α) (limit : Int) : List α :=
  if 0 ≤ limit then l.take limit.toNat
  else l.take (l.length - (-limit).toNat)

/-- The `*.json` files of the cache directory sorted by modification time,
most recent first (`Path.glob` yields nothing when the directory is
absent; Python `sorted` is stable, as insertion sort is). -/
def globJsonSorted (s : FsState) : List (String × FileRecord) :=
  List.insertionSort mtimeGe
    ((if s.rootExists then s.files else []).filter fun p => jsonExt p.1)

/-- `cache_files` of `list_cached_transcripts`: the sorted `*.json` files
truncated by `[:limit]`. -/
def listSelected (s : FsState) (limit : Int) : List (String × FileRecord) :=
  pySlice (globJsonSorted s) limit

/-- The summary dictionary `list_cached_transcripts` appends per entry. -/
structure CacheSummary where
  cache_key : String
  cached_at : String
  source_type : String
  title : String
  source : String
deriving DecidableEq

/-- The summary built from a parsed record: top-level fields are read with
`dict.get` defaults (always present on records written by
`save_to_cache`), metadata fields with the defaults of the source. -/
def mkSummary (d : CacheData) : CacheSummary :=
  { cache_key := d.cache_key
    cached_at := d.cached_at
    source_type := metaGet d.metadata "source_type" "unknown"
    title := metaGet d.metadata "title" "Unknown"
    source := metaGet d.metadata "source" "Unknown" }

/-- The `try` body of the loop of `list_cached_transcripts` for one file:
`None` when opening raises or `json.load` raises (the `except Exception:
continue` branch), the summary otherwise. -/
def readSummary (s : FsState) (cf : String × FileRecord) : Option CacheSummary :=
  if s.readFails cf.1 then none
  else
    match cf.2.content with
    | FileContent.jsonRecord d => some (mkSummary d)
    | FileContent.invalid => none

/-- `list_cached_transcripts` from `scripts/utils/cache_helpers.py`. -/
def list_cached_transcripts (s : FsState) (limit : Int) : List CacheSummary :=
  (listSelected s limit).filterMap (readSummary s)

/-- The dictionaries the wrapper `get_cached` of
`scripts/servers/transcribe/cache.py` returns: the miss dictionary with
`found = False` and a message, or the hit dictionary with `found = True`. -/
inductive GetCachedDict where
  | missEntry (cache_key : String) (message : String)
  | hitEntry (cache_key cached_at source_type title source transcript : String)
deriving DecidableEq

/-- The `"found"` field of a `get_cached` result dictionary. -/
def GetCachedDict.found : GetCachedDict → Bool
  | missEntry _ _ => false
  | hitEntry _ _ _ _ _ _ => true

/-- The miss message of `get_cached`. -/
def missMessage (cache_key : String) : String :=
  "No cached transcript found with key \x27" ++ cache_key ++
    "\x27. Use list_cache() to see available transcripts."

/-- `get_cached` from `scripts/servers/transcribe/cache.py`: its declared
return type is `dict | None` (modelled by the `Option`), but both branches
of the body return a dictionary. -/
def get_cached (s : FsState) (cache_key : String) : Option GetCachedDict :=
  match get_cached_transcript s cache_key with
  | none => some (GetCachedDict.missEntry cache_key (missMessage cache_key))
  | some d => some (GetCachedDict.hitEntry cache_key d.cached_at
      (metaGet d.metadata "source_type" "unknown")
      (metaGet d.metadata "title" "Unknown")
      (metaGet d.metadata "source" "Unknown")
      d.transcript)

/-! ### Concrete states used as witnesses -/

/-- A cache state with an existing, empty, fully functional cache
directory. -/
def cleanState : FsState :=
  { files := [], rootExists := true,
    readFails := fun _ => false, writeFails := fun _ => false }

/-- A state in which the cache directory itself is absent (for example,
removed after the modules were imported). -/
def noRootState : FsState :=
  { files := [], rootExists := false,
    readFails := fun _ => false, writeFails := fun _ => false }

/-- A state in which every write raises (permission denied / disk full). -/
def writeDeniedState : FsState :=
  { files := [], rootExists := true,
    readFails := fun _ => false, writeFails := fun _ => true }

/-- The file record `save_to_cache` writes. -/
def savedRecord (nowIso cache_key transcript : String) (m : Metadata)
    (now : Nat) : FileRecord :=
  ⟨FileContent.jsonRecord
    { transcript := transcript, metadata := m,
      cached_at := nowIso, cache_key := cache_key }, now⟩

/-- A concrete parsed record for the key `"a"`. -/
def dataA : CacheData :=
  { transcript := "ta",
    metadata := [("source_type", "youtube"), ("title", "A"), ("source", "srcA")],
    cached_at := "2024-01-01T00:00:00", cache_key := "a" }

/-- A concrete parsed record for the key `"b"`. -/
def dataB : CacheData :=
  { transcript := "tb",
    metadata := [("source_type", "podcast"), ("title", "B"), ("source", "srcB")],
    cached_at := "2024-01-02T00:00:00", cache_key := "b" }

/-- A state holding one record file whose contents fail to parse. -/
def corruptState : FsState :=
  { files := [(cacheFileName "c", ⟨FileContent.invalid, 0⟩)],
    rootExists := true, readFails := fun _ => false, writeFails := fun _ => false }

/-- A state holding one readable, parseable record. -/
def validState : FsState :=
  { files := [(cacheFileName "a", ⟨FileContent.jsonRecord dataA, 0⟩)],
    rootExists := true, readFails := fun _ => false, writeFails := fun _ => false }

/-- A state mixing a parseable record (key `"a"`, mtime 5) with an
unparseable one (mtime 9). -/
def mixedState : FsState :=
  { files := [(cacheFileName "a", ⟨FileContent.jsonRecord dataA, 5⟩),
              (cacheFileName "bad", ⟨FileContent.invalid, 9⟩)],
    rootExists := true, readFails := fun _ => false, writeFails := fun _ => false }

/-- A state holding two parseable records, with the `"a"` record more
recently modified than the `"b"` record. -/
def twoEntryState : FsState :=
  { files := [(cacheFileName "a", ⟨FileContent.jsonRecord dataA, 1⟩),
              (cacheFileName "b", ⟨FileContent.jsonRecord dataB, 0⟩)],
    rootExists := true, readFails := fun _ => false, writeFails := fun _ => false }

/-! ### Helper lemmas -/

/-- Cross-check of the MD5 embedding against `hashlib.md5`: digest of the
empty string. -/
theorem md5_empty_vector : md5Hexdigest "" = "d41d8cd98f00b204e9800998ecf8427e" := by
  decide

/-- Cross-check of the MD5 embedding against `hashlib.md5`: digest of
"abc". -/
theorem md5_abc_vector : md5Hexdigest "abc" = "900150983cd24fb0d6963f7d28e17f72" := by
  decide

theorem getFile_setFile_same (fs : List (String × FileRecord)) (n : String)
    (r : FileRecord) : getFile (setFile fs n r) n = some r := by
  induction fs with
  | nil => simp [setFile, getFile]
  | cons p rest ih =>
    obtain ⟨n0, r0⟩ := p
    by_cases h : n0 = n
    · simp [setFile, h, getFile]
    · simp [setFile, h, getFile, ih]

theorem getFile_setFile_other (fs : List (String × FileRecord)) (n n' : String)
    (r : FileRecord) (h : n ≠ n') : getFile (setFile fs n r) n' = getFile fs n' := by
  induction fs with
  | nil => simp [setFile, getFile, h]
  | cons p rest ih =>
    obtain ⟨n0, r0⟩ := p
    by_cases h0 : n0 = n
    · subst h0
      simp [setFile, getFile, h]
    · simp [setFile, h0, getFile, ih]

theorem save_ok_iff (s : FsState) (now : Nat) (nowIso cache_key transcript : String)
    (m : Metadata) (s2 : FsState) :
    save_to_cache s now nowIso cache_key transcript m = Except.ok s2 ↔
      s.rootExists = true ∧ s.writeFails (cacheFileName cache_key) = false ∧
        s2 = { s with files := (setFile s.files (cacheFileName cache_key)
                (savedRecord nowIso cache_key transcript m now)) } := by
  unfold save_to_cache savedRecord
  rcases hroot : s.rootExists with _ | _
  · simp [hroot]
  · rcases hw : s.writeFails (cacheFileName cache_key) with _ | _
    · simp [hw, eq_comm]
    · simp [hw]

theorem lookup_after_set (s : FsState) (cache_key : String) (d : CacheData)
    (now : Nat) (hroot : s.rootExists = true)
    (hread : s.readFails (cacheFileName cache_key) = false) :
    get_cached_transcript
      { s with files := (setFile s.files (cacheFileName cache_key)
                 (FileRecord.mk (FileContent.jsonRecord d) now)) } cache_key = some d := by
  unfold get_cached_transcript fileExists
  simp [getFile_setFile_same, hroot, hread]

/-! ### Claims -/

/-- C1.  Round-trip: a successful `save_to_cache(k, s, m)` followed by
`get_cached_transcript(k)` returns a present entry whose `transcript`
field equals `s` and whose `metadata` equals `m`. -/
theorem cache_round_trip
    (s : FsState) (now : Nat) (nowIso cache_key transcript : String)
    (m : Metadata) (s2 : FsState)
    (hsave : save_to_cache s now nowIso cache_key transcript m = Except.ok s2)
    (hread : s.readFails (cacheFileName cache_key) = false) :
    ∃ e : CacheData, get_cached_transcript s2 cache_key = some e ∧
      e.transcript = transcript ∧ e.metadata = m := by
  rw [save_ok_iff] at hsave
  obtain ⟨hroot, _, rfl⟩ := hsave
  exact ⟨{ transcript := transcript, metadata := m,
           cached_at := nowIso, cache_key := cache_key },
    lookup_after_set s cache_key _ now hroot hread, rfl, rfl⟩

/-- Witness for C1 at the spec's concrete input: storing
`"hello world"` with metadata `{"sourceType": "youtube", "title": "X"}`
and looking the key up again. -/
theorem cache_round_trip_witness :
    ∃ e : CacheData,
      get_cached_transcript
        { files := [(cacheFileName "k",
            ⟨FileContent.jsonRecord
              { transcript := "hello world",
                metadata := [("sourceType", "youtube"), ("title", "X")],
                cached_at := "2024-01-01T00:00:00", cache_key := "k" }, 7⟩)],
          rootExists := true, readFails := fun _ => false,
          writeFails := fun _ => false } "k" = some e ∧
      e.transcript = "hello world" ∧
      e.metadata = [("sourceType", "youtube"), ("title", "X")] :=
  cache_round_trip cleanState 7 "2024-01-01T00:00:00" "k" "hello world"
    [("sourceType", "youtube"), ("title", "X")] _ rfl rfl

/-- C2.  Determinism and purity of key derivation: `get_cache_key` is a
total function of its two string arguments (the embedding has no I/O and
no failure case), so any two invocations on equal arguments yield the
identical value. -/
theorem derive_key_deterministic (t s t' s' : String)
    (ht : t = t') (hs : s = s') : get_cache_key s t = get_cache_key s' t' := by
  rw [ht, hs]

/-- Witness for C2 at a concrete input. -/
theorem derive_key_deterministic_witness :
    get_cache_key "abc12345678" "youtube" = get_cache_key "abc12345678" "youtube" :=
  derive_key_deterministic "youtube" "abc12345678" "youtube" "abc12345678" rfl rfl

/-- C5.  Overwrite semantics: storing twice under the same key with
distinct transcripts leaves only the second record retrievable — the
lookup returns the wholesale second entry. -/
theorem overwrite_semantics
    (s : FsState) (now1 now2 : Nat) (iso1 iso2 cache_key tr1 tr2 : String)
    (m1 m2 : Metadata) (st1 st2 : FsState)
    (_hne : tr1 ≠ tr2)
    (h1 : save_to_cache s now1 iso1 cache_key tr1 m1 = Except.ok st1)
    (h2 : save_to_cache st1 now2 iso2 cache_key tr2 m2 = Except.ok st2)
    (hread : s.readFails (cacheFileName cache_key) = false) :
    get_cached_transcript st2 cache_key =
      some { transcript := tr2, metadata := m2,
             cached_at := iso2, cache_key := cache_key } := by
  rw [save_ok_iff] at h1 h2
  obtain ⟨hroot, _, rfl⟩ := h1
  obtain ⟨_, _, rfl⟩ := h2
  exact lookup_after_set _ cache_key _ now2 hroot hread

/-- Witness for C5: two stores under the key `"k"` with transcripts
`"first"` then `"second"`; the lookup returns the second record. -/
theorem overwrite_semantics_witness :
    get_cached_transcript
      { files := [(cacheFileName "k",
          ⟨FileContent.jsonRecord
            { transcript := "second", metadata := [("title", "B")],
              cached_at := "2024-02-02T00:00:00", cache_key := "k" }, 2⟩)],
        rootExists := true, readFails := fun _ => false,
        writeFails := fun _ => false } "k" =
      some { transcript := "second", metadata := [("title", "B")],
             cached_at := "2024-02-02T00:00:00", cache_key := "k" } :=
  overwrite_semantics cleanState 1 2 "2024-01-01T00:00:00" "2024-02-02T00:00:00"
    "k" "first" "second" [("title", "A")] [("title", "B")]
    { files := [(cacheFileName "k",
        ⟨FileContent.jsonRecord
          { transcript := "first", metadata := [("title", "A")],
            cached_at := "2024-01-01T00:00:00", cache_key := "k" }, 1⟩)],
      rootExists := true, readFails := fun _ => false,
      writeFails := fun _ => false } _
    (by decide) rfl rfl rfl

/-- C4.  Miss semantics: `get_cached_transcript` is a total function into
an option (it never raises — the read and parse are inside
`try/except Exception`): it returns `none` when no record file exists,
`none` when the file exists but opening it fails, `none` when its contents
fail to parse as JSON, and the parsed entry when the record is readable
and parseable. -/
theorem lookup_miss_semantics (s : FsState) (k : String) :
    (fileExists s (cacheFileName k) = false → get_cached_transcript s k = none) ∧
    (∀ r, getFile s.files (cacheFileName k) = some r →
      s.readFails (cacheFileName k) = true → get_cached_transcript s k = none) ∧
    (∀ t, getFile s.files (cacheFileName k) = some ⟨FileContent.invalid, t⟩ →
      get_cached_transcript s k = none) ∧
    (∀ d t, s.rootExists = true → s.readFails (cacheFileName k) = false →
      getFile s.files (cacheFileName k) = some ⟨FileContent.jsonRecord d, t⟩ →
      get_cached_transcript s k = some d) := by
  refine ⟨?_, ?_, ?_, ?_⟩
  · intro h
    unfold get_cached_transcript
    simp [h]
  · intro r hget hread
    unfold get_cached_transcript
    rcases hfe : fileExists s (cacheFileName k) with _ | _
    · simp [hfe]
    · simp [hfe, hget, hread]
  · intro t hget
    unfold get_cached_transcript
    rcases hfe : fileExists s (cacheFileName k) with _ | _
    · simp [hfe]
    · rcases hread : s.readFails (cacheFileName k) with _ | _
      · simp [hfe, hget, hread]
      · simp [hfe, hget, hread]
  · intro d t hroot hread hget
    have hfe : fileExists s (cacheFileName k) = true := by
      simp [fileExists, hroot, hget]
    unfold get_cached_transcript
    simp [hfe, hget, hread]

/-- Witness for C4: a never-written key on an empty cache, a corrupt
record, and a readable record. -/
theorem lookup_miss_semantics_witness :
    get_cached_transcript cleanState "nope" = none ∧
    get_cached_transcript corruptState "c" = none ∧
    get_cached_transcript validState "a" = some dataA :=
  ⟨(lookup_miss_semantics cleanState "nope").1 rfl,
   (lookup_miss_semantics corruptState "c").2.2.1 0 rfl,
   (lookup_miss_semantics validState "a").2.2.2 dataA 0 rfl rfl rfl⟩

/-- C7.  Write-failure propagation: `save_to_cache` has no exception
handler, so a failing write surfaces to the caller as the raised I/O
error — missing storage root or denied write — while a successful call
returns no value, only the state with the record written. -/
theorem save_failure_propagation (s : FsState) (now : Nat)
    (nowIso cache_key transcript : String) (m : Metadata) :
    (s.rootExists = false →
      save_to_cache s now nowIso cache_key transcript m =
        Except.error (IOFailure.fileNotFound (cacheFileName cache_key))) ∧
    (s.rootExists = true → s.writeFails (cacheFileName cache_key) = true →
      save_to_cache s now nowIso cache_key transcript m =
        Except.error (IOFailure.writeDenied (cacheFileName cache_key))) ∧
    (s.rootExists = true → s.writeFails (cacheFileName cache_key) = false →
      save_to_cache s now nowIso cache_key transcript m =
        Except.ok { s with files := (setFile s.files (cacheFileName cache_key)
          (savedRecord nowIso cache_key transcript m now)) }) := by
  refine ⟨?_, ?_, ?_⟩
  · intro h
    unfold save_to_cache
    simp [h]
  · intro hroot hw
    unfold save_to_cache
    simp [hroot, hw]
  · intro hroot hw
    unfold save_to_cache savedRecord
    simp [hroot, hw]

/-- Witness for C7: a denied write propagates as the raised error; a
permitted write returns the updated state. -/
theorem save_failure_propagation_witness :
    save_to_cache writeDeniedState 0 "2024-01-01T00:00:00" "k" "tr" [] =
      Except.error (IOFailure.writeDenied (cacheFileName "k")) ∧
    save_to_cache cleanState 0 "2024-01-01T00:00:00" "k" "tr" [] =
      Except.ok { cleanState with
        files := (setFile cleanState.files (cacheFileName "k")
          (savedRecord "2024-01-01T00:00:00" "k" "tr" [] 0)) } :=
  ⟨(save_failure_propagation writeDeniedState 0 "2024-01-01T00:00:00" "k" "tr" []).2.1
      rfl rfl,
   (save_failure_propagation cleanState 0 "2024-01-01T00:00:00" "k" "tr" []).2.2
      rfl rfl⟩

/-- C10.  The wrapper `get_cached` never returns `None` despite its
declared return type `dict | None`: on a miss it returns the dictionary
with `found = False`, the requested key and a message; on a hit it
returns the dictionary with `found = True`, the transcript and the
metadata fields. -/
theorem get_cached_never_none (s : FsState) (cache_key : String) :
    (get_cached s cache_key).isSome = true ∧
    (get_cached_transcript s cache_key = none →
      get_cached s cache_key =
        some (GetCachedDict.missEntry cache_key (missMessage cache_key))) ∧
    (∀ d, get_cached_transcript s cache_key = some d →
      get_cached s cache_key =
        some (GetCachedDict.hitEntry cache_key d.cached_at
          (metaGet d.metadata "source_type" "unknown")
          (metaGet d.metadata "title" "Unknown")
          (metaGet d.metadata "source" "Unknown") d.transcript)) ∧
    (∀ r, get_cached s cache_key = some r →
      (r.found = true ↔ (get_cached_transcript s cache_key).isSome = true)) := by
  rcases hc : get_cached_transcript s cache_key with _ | d
  · refine ⟨?_, ?_, ?_, ?_⟩
    · unfold get_cached
      simp [hc]
    · intro _
      unfold get_cached
      simp [hc]
    · intro d hd
      exact Option.noConfusion hd
    · intro r hr
      unfold get_cached at hr
      rw [hc] at hr
      simp at hr
      subst hr
      simp [GetCachedDict.found]
  · refine ⟨?_, ?_, ?_, ?_⟩
    · unfold get_cached
      simp [hc]
    · intro h
      exact Option.noConfusion h
    · intro d2 hd2
      injection hd2 with hd
      subst hd
      unfold get_cached
      simp [hc]
    · intro r hr
      unfold get_cached at hr
      rw [hc] at hr
      simp at hr
      subst hr
      simp [GetCachedDict.found]

/-- Witness for C10: a miss on the empty cache and a hit on a stored
record, both returning a present dictionary with the right `found` flag. -/
theorem get_cached_never_none_witness :
    (get_cached cleanState "x").isSome = true ∧
    get_cached cleanState "x" =
      some (GetCachedDict.missEntry "x" (missMessage "x")) ∧
    get_cached validState "a" =
      some (GetCachedDict.hitEntry "a" dataA.cached_at
        (metaGet dataA.metadata "source_type" "unknown")
        (metaGet dataA.metadata "title" "Unknown")
        (metaGet dataA.metadata "source" "Unknown") dataA.transcript) :=
  ⟨(get_cached_never_none cleanState "x").1,
   (get_cached_never_none cleanState "x").2.1 rfl,
   (get_cached_never_none validState "a").2.2.1 dataA rfl⟩

/-! ### Key collision machinery for C3 -/

theorem md5Block_lt (st : Nat × Nat × Nat × Nat) (block : List Nat) :
    (md5Block st block).1 < 4294967296 ∧ (md5Block st block).2.1 < 4294967296 ∧
    (md5Block st block).2.2.1 < 4294967296 ∧ (md5Block st block).2.2.2 < 4294967296 := by
  unfold md5Block u32
  refine ⟨?_, ?_, ?_, ?_⟩ <;> exact Nat.mod_lt _ (by norm_num)

theorem md5BlocksAux_lt (fuel : Nat) :
    ∀ (st : Nat × Nat × Nat × Nat) (msg : List Nat),
      st.1 < 4294967296 → st.2.1 < 4294967296 → st.2.2.1 < 4294967296 →
      st.2.2.2 < 4294967296 →
      (md5BlocksAux fuel st msg).1 < 4294967296 ∧
      (md5BlocksAux fuel st msg).2.1 < 4294967296 ∧
      (md5BlocksAux fuel st msg).2.2.1 < 4294967296 ∧
      (md5BlocksAux fuel st msg).2.2.2 < 4294967296 := by
  induction fuel with
  | zero =>
    intro st msg h1 h2 h3 h4
    exact ⟨h1, h2, h3, h4⟩
  | succ n ih =>
    intro st msg h1 h2 h3 h4
    by_cases h : msg.length < 64
    · simp only [md5BlocksAux, if_pos h]
      exact ⟨h1, h2, h3, h4⟩
    · simp only [md5BlocksAux, if_neg h]
      obtain ⟨b1, b2, b3, b4⟩ := md5Block_lt st (msg.take 64)
      exact ih _ _ b1 b2 b3 b4

theorem md5Words_lt (msg : List Nat) :
    (md5Words msg).1 < 4294967296 ∧ (md5Words msg).2.1 < 4294967296 ∧
    (md5Words msg).2.2.1 < 4294967296 ∧ (md5Words msg).2.2.2 < 4294967296 :=
  md5BlocksAux_lt _ md5Init _ (by decide) (by decide) (by decide) (by decide)

theorem md5Words_eq_of_fin_eq (m1 m2 : List Nat)
    (h : md5WordsFin m1 = md5WordsFin m2) : md5Words m1 = md5Words m2 := by
  have h1 := congrArg (fun p => p.1.1) h
  have h2 := congrArg (fun p => p.2.1.1) h
  have h3 := congrArg (fun p => p.2.2.1.1) h
  have h4 := congrArg (fun p => p.2.2.2.1) h
  simp only [md5WordsFin] at h1 h2 h3 h4
  obtain ⟨a1, b1, c1, d1⟩ := md5Words_lt m1
  obtain ⟨a2, b2, c2, d2⟩ := md5Words_lt m2
  rw [Nat.mod_eq_of_lt a1, Nat.mod_eq_of_lt a2] at h1
  rw [Nat.mod_eq_of_lt b1, Nat.mod_eq_of_lt b2] at h2
  rw [Nat.mod_eq_of_lt c1, Nat.mod_eq_of_lt c2] at h3
  rw [Nat.mod_eq_of_lt d1, Nat.mod_eq_of_lt d2] at h4
  exact Prod.ext h1 (Prod.ext h2 (Prod.ext h3 h4))

theorem aRun_injective {n m : Nat} (h : aRun n = aRun m) : n = m := by
  have := congrArg (fun s => s.data.length) h
  simpa [aRun] using this

/-- Counterexample for C3: the claim quantifies over all strings, but the
digest space is finite while the space of `source_type` strings is
infinite, so two distinct types share the key of the same identifier
`"abc12345678"` (the pigeonhole principle applied to the MD5 state
space). -/
theorem derive_key_collision :
    ∃ t1 t2 : String, t1 ≠ t2 ∧
      get_cache_key "abc12345678" t1 = get_cache_key "abc12345678" t2 := by
  obtain ⟨n, m, hnm, heq⟩ := Finite.exists_ne_map_eq_of_infinite
    (fun n : Nat => md5WordsFin (utf8Bytes (aRun n ++ ":" ++ "abc12345678")))
  refine ⟨aRun n, aRun m, fun hcontra => hnm (aRun_injective hcontra), ?_⟩
  unfold get_cache_key md5Hexdigest
  exact congrArg md5HexOfWords (md5Words_eq_of_fin_eq _ _ heq)

/-- C3 amended: identical `(source_type, source)` pairs always produce
the identical cache key, and the enumerated source-type tags are
namespace-separated at the spec's example — the youtube and podcast keys
of `"abc12345678"` differ.  (The original universal distinctness over all
strings is refuted by `derive_key_collision`.) -/
theorem derive_key_namespace :
    (∀ t s : String, get_cache_key s t = get_cache_key s t) ∧
    get_cache_key "abc12345678" "youtube" ≠ get_cache_key "abc12345678" "podcast" :=
  ⟨fun _ _ => rfl, by decide⟩

/-! ### C8: directory creation happens at import, not in store -/

/-- Counterexample for C8 as stated: when the storage root is absent at
the time of the call, `save_to_cache` does not create it — the call fails
with the propagated I/O error instead of creating the directory and
succeeding. -/
theorem save_no_mkdir_cex :
    save_to_cache noRootState 0 "2024-01-01T00:00:00" "k" "tr" [] =
      Except.error (IOFailure.fileNotFound (cacheFileName "k")) := rfl

/-- C8 amended: `save_to_cache` creates or overwrites the record at the
location derived solely from the key, but the storage root is created —
idempotently — by the import-time initialization of
`scripts/utils/constants.py`, not by `save_to_cache`: a store finding the
root absent fails rather than creating it. -/
theorem save_record_and_init_mkdir (s : FsState) (now : Nat)
    (nowIso cache_key transcript : String) (m : Metadata) :
    (constants_init (constants_init s) = constants_init s ∧
      (constants_init s).rootExists = true) ∧
    (s.rootExists = true → s.writeFails (cacheFileName cache_key) = false →
      save_to_cache s now nowIso cache_key transcript m =
        Except.ok { s with files := (setFile s.files (cacheFileName cache_key)
          (savedRecord nowIso cache_key transcript m now)) }) ∧
    (s.rootExists = false →
      save_to_cache s now nowIso cache_key transcript m =
        Except.error (IOFailure.fileNotFound (cacheFileName cache_key))) := by
  refine ⟨⟨rfl, rfl⟩, ?_, ?_⟩
  · intro hroot hw
    unfold save_to_cache savedRecord
    simp [hroot, hw]
  · intro h
    unfold save_to_cache
    simp [h]

/-- Witness for C8's amended statement: import-time initialization is
idempotent and creates the root; a store against an existing root
succeeds and writes exactly the record. -/
theorem save_record_and_init_mkdir_witness :
    constants_init (constants_init noRootState) = constants_init noRootState ∧
    (constants_init noRootState).rootExists = true ∧
    save_to_cache cleanState 3 "2024-01-01T00:00:00" "w" "tr" [] =
      Except.ok { cleanState with
        files := (setFile cleanState.files (cacheFileName "w")
          (savedRecord "2024-01-01T00:00:00" "w" "tr" [] 3)) } :=
  ⟨(save_record_and_init_mkdir noRootState 3 "x" "w" "tr" []).1.1,
   (save_record_and_init_mkdir noRootState 3 "x" "w" "tr" []).1.2,
   (save_record_and_init_mkdir cleanState 3 "2024-01-01T00:00:00" "w" "tr" []).2.1
     rfl rfl⟩

/-! ### C9: corruption tolerance of the listing -/

/-- C9.  The listing is a total function (the per-file read and parse sit
inside `try/except Exception: continue`): every returned summary comes
from a selected, readable, parseable record, and every selected readable
parseable record still contributes its summary — unparseable neighbours
are skipped silently without aborting the listing. -/
theorem list_corruption_tolerance (s : FsState) (limit : Int) :
    (∀ x ∈ list_cached_transcripts s limit, ∃ p ∈ listSelected s limit,
      s.readFails p.1 = false ∧ ∃ d, p.2.content = FileContent.jsonRecord d ∧
        x = mkSummary d) ∧
    (∀ p ∈ listSelected s limit, ∀ d, p.2.content = FileContent.jsonRecord d →
      s.readFails p.1 = false → mkSummary d ∈ list_cached_transcripts s limit) := by
  constructor
  · intro x hx
    unfold list_cached_transcripts at hx
    rcases List.mem_filterMap.mp hx with ⟨p, hp, hps⟩
    refine ⟨p, hp, ?_⟩
    unfold readSummary at hps
    rcases hrf : s.readFails p.1 with _ | _
    · rw [hrf] at hps
      simp only [Bool.false_eq_true, if_false] at hps
      rcases hcontent : p.2.content with d | _
      · rw [hcontent] at hps
        simp only [Option.some.injEq] at hps
        exact ⟨rfl, d, rfl, hps.symm⟩
      · rw [hcontent] at hps
        exact Option.noConfusion hps
    · rw [hrf] at hps
      simp only [if_true] at hps
      exact Option.noConfusion hps
  · intro p hp d hd hrf
    unfold list_cached_transcripts
    exact List.mem_filterMap.mpr ⟨p, hp, by simp [readSummary, hrf, hd]⟩

/-- Witness for C9: a cache holding one parseable record (key `"a"`) and
one unparseable record; the listing still returns the parseable entry's
summary, and nothing else. -/
theorem list_corruption_tolerance_witness :
    mkSummary dataA ∈ list_cached_transcripts mixedState 5 ∧
    list_cached_transcripts mixedState 5 = [mkSummary dataA] :=
  ⟨(list_corruption_tolerance mixedState 5).2
      (cacheFileName "a", ⟨FileContent.jsonRecord dataA, 5⟩) (by decide) dataA rfl rfl,
   by decide⟩

/-! ### C6: list ordering and cap -/

theorem cacheFileName_inj {k1 k2 : String} (h : cacheFileName k1 = cacheFileName k2) :
    k1 = k2 := by
  unfold cacheFileName at h
  have hd := congrArg String.data h
  rw [String.data_append, String.data_append] at hd
  have hk := List.append_left_injective ".json".data hd
  cases k1
  cases k2
  exact congrArg String.mk hk

theorem jsonExt_cacheFileName (k : String) : jsonExt (cacheFileName k) = true := by
  unfold jsonExt cacheFileName
  rw [String.data_append]
  rw [show (".json".data) = ['.', 'j', 's', 'o', 'n'] from rfl, List.reverse_append]
  rw [show (['.', 'j', 's', 'o', 'n'] : List Char).reverse = ['n', 'o', 's', 'j', '.']
    from rfl]
  rw [show (5 : Nat) = (['n', 'o', 's', 'j', '.'] : List Char).length from rfl,
    List.take_left]
  simp

theorem list_one_of_two (n1 n2 : String) (r1 r2 : FileRecord)
    (hj1 : jsonExt n1 = true) (hj2 : jsonExt n2 = true)
    (hlt : r1.mtime < r2.mtime) (d2 : CacheData)
    (hc2 : r2.content = FileContent.jsonRecord d2) :
    list_cached_transcripts
      ⟨[(n1, r1), (n2, r2)], true, fun _ => false, fun _ => false⟩ 1 =
      [mkSummary d2] := by
  have hnot : ¬ mtimeGe (n1, r1) (n2, r2) := Nat.not_le.mpr hlt
  unfold list_cached_transcripts listSelected globJsonSorted pySlice
  simp only [List.filter, hj1, hj2, if_true]
  simp only [List.insertionSort, List.orderedInsert]
  rw [if_neg hnot]
  simp [readSummary, hc2]

/-- Counterexample for C6 as stated: the claim quantifies over every
integer limit, but the code truncates with the Python slice `[:limit]` —
at `limit = -1` on a cache of two parseable records it returns one
summary, which is not "at most -1" summaries. -/
theorem list_negative_limit_cex :
    list_cached_transcripts twoEntryState (-1) = [mkSummary dataA] ∧
    ¬ (((list_cached_transcripts twoEntryState (-1)).length : Int) ≤ -1) := by
  constructor
  · decide
  · decide

/-- C6 amended: for every nonnegative limit, the listing returns at most
`limit` summaries, drawn from the files sorted by storage-layer
modification time most-recently-modified first (not by the `cached_at`
field); in particular, writing `k1` (older mtime) then `k2` (newer) into
an empty cache and listing with limit 1 yields exactly the summary of
`k2`.  (For negative limits the code follows Python slice semantics and
the cap fails: see the counterexample.) -/
theorem list_ordering_and_cap :
    (∀ (s : FsState) (limit : Int), 0 ≤ limit →
      ((list_cached_transcripts s limit).length : Int) ≤ limit) ∧
    (∀ (s : FsState) (limit : Int), List.Pairwise mtimeGe (listSelected s limit)) ∧
    (∀ (s : FsState) (limit : Int),
      list_cached_transcripts s limit =
        (listSelected s limit).filterMap (readSummary s)) ∧
    (∀ (k1 k2 tr1 tr2 iso1 iso2 : String) (m1 m2 : Metadata) (t1 t2 : Nat)
      (st1 st2 : FsState), k1 ≠ k2 → t1 < t2 →
      save_to_cache cleanState t1 iso1 k1 tr1 m1 = Except.ok st1 →
      save_to_cache st1 t2 iso2 k2 tr2 m2 = Except.ok st2 →
      list_cached_transcripts st2 1 =
        [mkSummary { transcript := tr2, metadata := m2,
                     cached_at := iso2, cache_key := k2 }]) := by
  refine ⟨?_, ?_, ?_, ?_⟩
  · intro s limit hlim
    have h1 : (list_cached_transcripts s limit).length ≤ (listSelected s limit).length :=
      List.length_filterMap_le _ _
    have h2 : (listSelected s limit).length ≤ limit.toNat := by
      unfold listSelected pySlice
      rw [if_pos hlim]
      exact List.length_take_le _ _
    omega
  · intro s limit
    have hs : List.Pairwise mtimeGe (globJsonSorted s) :=
      List.sorted_insertionSort mtimeGe _
    unfold listSelected pySlice
    by_cases h : 0 ≤ limit
    · rw [if_pos h]
      exact hs.sublist (List.take_sublist _ _)
    · rw [if_neg h]
      exact hs.sublist (List.take_sublist _ _)
  · intro s limit
    rfl
  · intro k1 k2 tr1 tr2 iso1 iso2 m1 m2 t1 t2 st1 st2 hk ht h1 h2
    rw [save_ok_iff] at h1 h2
    obtain ⟨-, -, rfl⟩ := h1
    obtain ⟨-, -, rfl⟩ := h2
    have hne : cacheFileName k1 ≠ cacheFileName k2 :=
      fun hcontra => hk (cacheFileName_inj hcontra)
    have hset : setFile [(cacheFileName k1, savedRecord iso1 k1 tr1 m1 t1)]
        (cacheFileName k2) (savedRecord iso2 k2 tr2 m2 t2) =
        [(cacheFileName k1, savedRecord iso1 k1 tr1 m1 t1),
         (cacheFileName k2, savedRecord iso2 k2 tr2 m2 t2)] := by
      simp [setFile, hne]
    have hmain := list_one_of_two (cacheFileName k1) (cacheFileName k2)
      (savedRecord iso1 k1 tr1 m1 t1) (savedRecord iso2 k2 tr2 m2 t2)
      (jsonExt_cacheFileName k1) (jsonExt_cacheFileName k2)
      (by simpa [savedRecord] using ht) _ rfl
    exact (congrArg (fun l => list_cached_transcripts
      ⟨l, true, fun _ => false, fun _ => false⟩ 1) hset).trans hmain

/-- Witness for C6's amended statement: the cap at a nonnegative limit,
and the two-entry scenario with keys `"k1"` (mtime 1) then `"k2"`
(mtime 2) listing exactly the summary of `"k2"`. -/
theorem list_ordering_and_cap_witness :
    ((list_cached_transcripts twoEntryState 3).length : Int) ≤ 3 ∧
    list_cached_transcripts
      ⟨[(cacheFileName "k1", savedRecord "2024-01-01T00:00:00" "k1" "t1" [] 1),
        (cacheFileName "k2", savedRecord "2024-01-02T00:00:00" "k2" "t2" [] 2)],
       true, fun _ => false, fun _ => false⟩ 1 =
      [mkSummary { transcript := "t2", metadata := [],
                   cached_at := "2024-01-02T00:00:00", cache_key := "k2" }] := by
  constructor
  · exact list_ordering_and_cap.1 twoEntryState 3 (by decide)
  · exact list_ordering_and_cap.2.2.2 "k1" "k2" "t1" "t2"
      "2024-01-01T00:00:00" "2024-01-02T00:00:00" [] [] 1 2
      ⟨[(cacheFileName "k1", savedRecord "2024-01-01T00:00:00" "k1" "t1" [] 1)],
       true, fun _ => false, fun _ => false⟩
      ⟨[(cacheFileName "k1", savedRecord "2024-01-01T00:00:00" "k1" "t1" [] 1),
        (cacheFileName "k2", savedRecord "2024-01-02T00:00:00" "k2" "t2" [] 2)],
       true, fun _ => false, fun _ => false⟩
      (by decide) (by decide) rfl rfl

end TranscribeCache
